import Mathlib

/-!
Shallow embedding of the `campos` library (fields, validation, forms over a
Qt-style GUI toolkit) and proofs about its behaviour.

Python exceptions are modelled with `Except PyError`; Python strings with
`String`; the class-level mutable state of the library (the field counter,
the per-enum `_CURRENT` members and the `QT_API` environment variable) with
an explicit `GlobalState` record that operations thread through.
-/

namespace Campos

instance exceptDecEq {e a : Type} [DecidableEq e] [DecidableEq a] :
    DecidableEq (Except e a) := fun x y =>
  match x, y with
  | Except.ok u, Except.ok v =>
    if h : u = v then isTrue (by rw [h]) else isFalse (by intro he; cases he; exact h rfl)
  | Except.error u, Except.error v =>
    if h : u = v then isTrue (by rw [h]) else isFalse (by intro he; cases he; exact h rfl)
  | Except.ok _, Except.error _ => isFalse (by intro he; cases he)
  | Except.error _, Except.ok _ => isFalse (by intro he; cases he)

/-- Python exceptions raised by the library code. -/
inductive PyError where
  | valueError (msg : String)
  | typeError (msg : String)
  | importError (msg : String)
  | attributeError (msg : String)
  deriving DecidableEq, Repr

/-! ## Python string primitives (ASCII, as used by the library) -/

/-- Python's `str.upper()` on the ASCII names the library manipulates. -/
def py_upper (s : String) : String := String.mk (s.data.map Char.toUpper)

/-- Python's `str.lower()` on the ASCII names the library manipulates. -/
def py_lower (s : String) : String := String.mk (s.data.map Char.toLower)

/-- Python's `str.strip()`: remove leading and trailing whitespace. -/
def py_strip (s : String) : String :=
  String.mk (((s.data.dropWhile Char.isWhitespace).reverse.dropWhile Char.isWhitespace).reverse)

/-! ## enums.py -/

/-- The argument accepted by `BaseEnum.get_member`: an enum member (modelled by
its name, as produced by `isinstance(arg, cls)` succeeding), a Python string,
or any other object (which matches neither `isinstance` check). -/
inductive MemberArg where
  | member (name : String)
  | str (s : String)
  | other
  deriving DecidableEq, Repr

/-- A concrete `BaseEnum` subclass: its member names, whether it subclasses
`HasCurrent`, the `_CURRENT` attribute (set by `set_current`, absent
initially), and the result of `default()` (`some` exactly when the enum
subclasses `HasDefault`). -/
structure EnumSpec where
  name : String
  members : List String
  hasCurrent : Bool
  current : Option String
  defaultMember : Option String
  deriving DecidableEq, Repr

/-- `HasDefault.default` of enums.py: abstract classmethod, `some` on every
concrete `HasDefault` subclass. -/
def default_member (E : EnumSpec) : Except PyError String :=
  match E.defaultMember with
  | some m => Except.ok m
  | none => Except.error (PyError.attributeError "default is abstract")

/-- `HasCurrent.get_current` of enums.py: returns `_CURRENT` if it was set,
otherwise falls back to `default()` on `HasDefault` subclasses, otherwise
raises AttributeError. -/
def get_current (E : EnumSpec) : Except PyError String :=
  match E.current with
  | some m => Except.ok m
  | none =>
    match E.defaultMember with
    | some m => Except.ok m
    | none => Except.error (PyError.attributeError ("No " ++ E.name ++ " option has been settled"))

/-- `BaseEnum.get_member` of enums.py: members pass through; strings are
resolved case-insensitively against member names after `strip()`, then the
`'CURRENT'` and `'DEFAULT'` shortcuts are tried; everything else raises
ValueError. -/
def get_member (E : EnumSpec) (arg : MemberArg) : Except PyError String :=
  match arg with
  | MemberArg.member m => Except.ok m
  | MemberArg.str s =>
    let u := py_upper (py_strip s)
    match E.members.find? (fun m => py_upper m == u) with
    | some m => Except.ok m
    | none =>
      if u == "CURRENT" && E.hasCurrent then get_current E
      else if u == "DEFAULT" && E.defaultMember.isSome then default_member E
      else Except.error (PyError.valueError ("Unknown member of " ++ E.name))
  | MemberArg.other => Except.error (PyError.valueError ("Unknown member of " ++ E.name))

/-- The `Labelling` enum of enums.py: members LEFT and TOP, `HasCurrent` and
`HasDefault` with default LEFT; `_CURRENT` starts unset. -/
def labelling_enum : EnumSpec :=
  { name := "Labelling", members := ["LEFT", "TOP"], hasCurrent := true,
    current := none, defaultMember := some "LEFT" }

/-- The `Validation` enum of enums.py: members MANUAL and INSTANT,
`HasCurrent` and `HasDefault` with default INSTANT. -/
def validation_enum : EnumSpec :=
  { name := "Validation", members := ["MANUAL", "INSTANT"], hasCurrent := true,
    current := none, defaultMember := some "INSTANT" }

/-- The `QtAPI` enum of enums.py, assuming all three supported bindings are
importable; `HasCurrent` but not `HasDefault`. -/
def qtapi_enum : EnumSpec :=
  { name := "QtAPI", members := ["PyQt4", "PyQt5", "PySide"], hasCurrent := true,
    current := none, defaultMember := none }

/-- The behaviour C4 ascribes to `get_member`, written from the claim's words:
members pass through; a string resolves to a member whose name equals
`arg.strip()` case-insensitively if one exists, otherwise to `get_current()`
when the stripped uppercase string is CURRENT on a `HasCurrent` enum,
otherwise to `default()` when it is DEFAULT on a `HasDefault` enum; every
remaining case raises ValueError. -/
def get_member_claim (E : EnumSpec) (arg : MemberArg) (r : Except PyError String) : Prop :=
  match arg with
  | MemberArg.member m => r = Except.ok m
  | MemberArg.str s =>
    if ∃ m ∈ E.members, py_upper m = py_upper (py_strip s) then
      ∃ m ∈ E.members, py_upper m = py_upper (py_strip s) ∧ r = Except.ok m
    else if py_upper (py_strip s) = "CURRENT" ∧ E.hasCurrent = true then
      r = get_current E
    else if py_upper (py_strip s) = "DEFAULT" ∧ E.defaultMember.isSome = true then
      r = default_member E
    else
      ∃ msg, r = Except.error (PyError.valueError msg)
  | MemberArg.other => ∃ msg, r = Except.error (PyError.valueError msg)

/-- C4: `BaseEnum.get_member` satisfies the claimed case analysis for every
enum and every argument. -/
theorem campos_C4_get_member (E : EnumSpec) (arg : MemberArg) :
    get_member_claim E arg (get_member E arg) := by
  cases arg with
  | member m => simp [get_member, get_member_claim]
  | other => exact ⟨"Unknown member of " ++ E.name, rfl⟩
  | str s =>
    simp only [get_member, get_member_claim]
    cases hf : E.members.find? (fun m => py_upper m == py_upper (py_strip s)) with
    | some m =>
      have hmem : m ∈ E.members := List.mem_of_find?_eq_some hf
      have hp : py_upper m == py_upper (py_strip s) :=
        List.find?_some (p := fun (x : String) => py_upper x == py_upper (py_strip s)) hf
      have hpe : py_upper m = py_upper (py_strip s) := by simpa using hp
      rw [if_pos ⟨m, hmem, hpe⟩]
      exact ⟨m, hmem, hpe, rfl⟩
    | none =>
      have hno : ¬ ∃ m ∈ E.members, py_upper m = py_upper (py_strip s) := by
        rintro ⟨m, hm, he⟩
        have := List.find?_eq_none.mp hf m hm
        simp [he] at this
      rw [if_neg hno]
      by_cases hc : py_upper (py_strip s) = "CURRENT" ∧ E.hasCurrent = true
      · rw [if_pos hc]
        simp [hc.1, hc.2]
      · rw [if_neg hc]
        by_cases hd : py_upper (py_strip s) = "DEFAULT" ∧ E.defaultMember.isSome = true
        · rw [if_pos hd]
          have hnc : ¬ (py_upper (py_strip s) == "CURRENT" && E.hasCurrent) = true := by
            simp only [Bool.and_eq_true, beq_iff_eq]
            exact fun h => hc ⟨h.1, h.2⟩
          simp only [hnc]
          simp [hd.1, hd.2]
        · rw [if_neg hd]
          have hnc : ¬ (py_upper (py_strip s) == "CURRENT" && E.hasCurrent) = true := by
            simp only [Bool.and_eq_true, beq_iff_eq]
            exact fun h => hc ⟨h.1, h.2⟩
          have hnd : ¬ (py_upper (py_strip s) == "DEFAULT" && E.defaultMember.isSome) = true := by
            simp only [Bool.and_eq_true, beq_iff_eq]
            exact fun h => hd ⟨h.1, h.2⟩
          simp only [hnc, hnd, if_false]
          exact ⟨"Unknown member of " ++ E.name, rfl⟩

/-! ## validators and core.py Field.validate / BaseField.validate -/

/-- Modelled from the spec: the `campos.validators` module is not under src
(only its importers and the docs/examples are). A validator is a callable
that raises ValueError on a bad field value: `dataRequired` is the
`DataRequired` validator, which rejects empty values; `failsOn bad msg`
abstracts any other callable validator by the finite set of values it
rejects and the message it raises. -/
inductive Validator where
  | dataRequired
  | failsOn (bad : List String) (msg : String)
  deriving DecidableEq, Repr

/-- Calling a validator on a field holding `value`: `some msg` models raising
`ValueError(msg)`, `none` models returning normally. -/
def apply_validator (v : Validator) (value : String) : Option String :=
  match v with
  | Validator.dataRequired => if value == "" then some "This field is required" else none
  | Validator.failsOn bad msg => if bad.contains value then some msg else none

/-- The state of a `Field` (core.py) that `validate` touches: the current
value, the `errors` list, the `validators` list, the `message` attribute
(`""` models Python's falsy `None`/empty message) and, for `BaseField`, the
text of the error label. -/
structure FieldState where
  value : String
  errors : List String
  validators : List Validator
  message : String
  errorLabel : String
  deriving DecidableEq, Repr

/-- The `for validator in self.validators` loop of `Field.validate`
(core.py): call each validator in order; on the first ValueError append it to
`errors` and return False; return True if the loop finishes. -/
def validate_loop (f : FieldState) : List Validator → Bool × FieldState
  | [] => (true, f)
  | v :: vs =>
    match apply_validator v f.value with
    | some e => (false, { f with errors := f.errors ++ [e] })
    | none => validate_loop f vs

/-- `Field.validate` (core.py lines 174-188): clear `errors`, then run the
validator loop. -/
def field_validate (f : FieldState) : Bool × FieldState :=
  validate_loop { f with errors := [] } f.validators

/-- `BaseField.validate` (core.py lines 317-325): run `Field.validate`, then
write the error label: empty when valid, else `message` if truthy, else
`str(self.errors.pop())` (which removes the recorded error). -/
def base_field_validate (f : FieldState) : Bool × FieldState :=
  let r := field_validate f
  if r.1 then (r.1, { r.2 with errorLabel := "" })
  else if r.2.message ≠ "" then (r.1, { r.2 with errorLabel := r.2.message })
  else
    match r.2.errors.getLast? with
    | some e => (r.1, { r.2 with errors := r.2.errors.dropLast, errorLabel := e })
    | none => (r.1, { r.2 with errorLabel := "" })

lemma validate_loop_cases (f : FieldState) (vs : List Validator) :
    (validate_loop f vs = (true, f) ∧ ∀ v ∈ vs, apply_validator v f.value = none)
  ∨ (∃ pre v post e, vs = pre ++ v :: post
      ∧ (∀ u ∈ pre, apply_validator u f.value = none)
      ∧ apply_validator v f.value = some e
      ∧ validate_loop f vs = (false, { f with errors := f.errors ++ [e] })) := by
  induction vs with
  | nil => exact Or.inl ⟨rfl, by simp⟩
  | cons v vs ih =>
    cases hv : apply_validator v f.value with
    | some e =>
      refine Or.inr ⟨[], v, vs, e, by simp, by simp, hv, ?_⟩
      simp [validate_loop, hv]
    | none =>
      rcases ih with ⟨hrun, hall⟩ | ⟨pre, w, post, e, hsplit, hpre, hw, hrun⟩
      · refine Or.inl ⟨?_, ?_⟩
        · simp [validate_loop, hv, hrun]
        · intro u hu
          rcases List.mem_cons.mp hu with h | h
          · exact h ▸ hv
          · exact hall u h
      · refine Or.inr ⟨v :: pre, w, post, e, by simp [hsplit], ?_, hw, ?_⟩
        · intro u hu
          rcases List.mem_cons.mp hu with h | h
          · exact h ▸ hv
          · exact hpre u h
        · simp [validate_loop, hv, hrun]

lemma field_validate_true_iff (f : FieldState) :
    (field_validate f).1 = true ↔ ∀ v ∈ f.validators, apply_validator v f.value = none := by
  unfold field_validate
  rcases validate_loop_cases { f with errors := [] } f.validators with ⟨hrun, hall⟩ |
      ⟨pre, v, post, e, hsplit, hpre, hv, hrun⟩
  · simpa [hrun] using hall
  · rw [hrun]
    simp only [show (false, { f with errors := ([] : List String) ++ [e] }).1 = false from rfl]
    constructor
    · intro h; exact absurd h (by simp)
    · intro hall
      have := hall v (by simp [hsplit])
      rw [this] at hv
      cases hv

/-- C2: `Field.validate` clears `errors`, applies the validators in list
order, returns False on the first ValueError recording exactly that error
(so `errors` ends with at most one element), and returns True with `errors`
empty exactly when no validator raises; `BaseField.validate` returns the
same boolean and also leaves at most one recorded error. -/
theorem campos_C2_validate (f : FieldState) :
    ((field_validate f).1 = true ∧ (field_validate f).2.errors = []
        ↔ ∀ v ∈ f.validators, apply_validator v f.value = none)
  ∧ ((field_validate f).1 = false
        ↔ ∃ pre v post e, f.validators = pre ++ v :: post
            ∧ (∀ u ∈ pre, apply_validator u f.value = none)
            ∧ apply_validator v f.value = some e
            ∧ (field_validate f).2.errors = [e])
  ∧ (field_validate f).2.errors.length ≤ 1
  ∧ (base_field_validate f).1 = (field_validate f).1
  ∧ (base_field_validate f).2.errors.length ≤ 1 := by
  rcases validate_loop_cases { f with errors := [] } f.validators with ⟨hrun, hall⟩ |
      ⟨pre, v, post, e, hsplit, hpre, hv, hrun⟩
  · have hfv : field_validate f = (true, { f with errors := [] }) := by
      simpa [field_validate] using hrun
    refine ⟨?_, ?_, ?_, ?_, ?_⟩
    · simp only [hfv]
      exact ⟨fun _ => hall, fun _ => by simp⟩
    · simp only [hfv]
      constructor
      · intro h; cases h
      · rintro ⟨pre, v, post, e, hsplit, hpre2, hv, -⟩
        have := hall v (by simp [hsplit])
        rw [this] at hv
        cases hv
    · simp [hfv]
    · simp [base_field_validate, hfv]
    · simp [base_field_validate, hfv]
  · have hfv : field_validate f = (false, { f with errors := [e] }) := by
      simpa [field_validate] using hrun
    refine ⟨?_, ?_, ?_, ?_, ?_⟩
    · simp only [hfv]
      constructor
      · rintro ⟨h, -⟩; cases h
      · intro hall
        have := hall v (by simp [hsplit])
        rw [this] at hv
        cases hv
    · simp only [hfv]
      exact ⟨fun _ => ⟨pre, v, post, e, hsplit, hpre, hv, rfl⟩, fun _ => by simp⟩
    · simp [hfv]
    · by_cases hm : f.message = "" <;> simp [base_field_validate, hfv, hm]
    · by_cases hm : f.message = "" <;> simp [base_field_validate, hfv, hm]

/-! ## the `required` property (core.py lines 94-106, utils.py lines 53-57) -/

/-- Whether a validator is a `DataRequired` instance (`isinstance(v, DataRequired)`). -/
def is_data_required (v : Validator) : Bool :=
  match v with
  | Validator.dataRequired => true
  | Validator.failsOn _ _ => false

/-- `first_validator_of_type(validators, DataRequired)` of utils.py
(imported by core.py under the name `first_of_type`): the first validator of
the given type, or None. -/
def first_of_type (vs : List Validator) : Option Validator :=
  vs.find? is_data_required

/-- Python's `list.remove(x)` restricted to the use in the `required` setter:
it removes the first element equal to the `DataRequired` instance found by
`first_of_type`, i.e. the first `DataRequired` occurrence. -/
def list_remove_data_required : List Validator → List Validator
  | [] => []
  | v :: vs => if is_data_required v then vs else v :: list_remove_data_required vs

/-- The `required` property getter (core.py lines 94-96). -/
def required_getter (vs : List Validator) : Bool :=
  (first_of_type vs).isSome

/-- The `required` property setter (core.py lines 98-106): when set to True
append a fresh `DataRequired()` if none is present; when set to False remove
the one found by `first_of_type`, if any. -/
def required_setter (vs : List Validator) (value : Bool) : List Validator :=
  match first_of_type vs, value with
  | none, true => vs ++ [Validator.dataRequired]
  | some _, true => vs
  | some _, false => list_remove_data_required vs
  | none, false => vs

/-- The tail of `Field.__init__` (core.py lines 38-47): `validators` starts
empty, `self.required = required` runs the setter, then the given validators
are appended in order. -/
def field_init_validators (required : Bool) (given : List Validator) : List Validator :=
  required_setter [] required ++ given

lemma first_of_type_eq_none (vs : List Validator) :
    first_of_type vs = none ↔ ∀ v ∈ vs, is_data_required v = false := by
  simp [first_of_type, List.find?_eq_none]

lemma required_getter_iff (vs : List Validator) :
    required_getter vs = true ↔ ∃ v ∈ vs, is_data_required v = true := by
  simp only [required_getter, Option.isSome_iff_exists, first_of_type]
  constructor
  · rintro ⟨v, hv⟩
    exact ⟨v, List.mem_of_find?_eq_some hv, List.find?_some (p := is_data_required) hv⟩
  · rintro ⟨v, hmem, hv⟩
    exact Option.isSome_iff_exists.mp (List.find?_isSome.mpr ⟨v, hmem, hv⟩)

lemma count_list_remove (vs : List Validator) (h : 0 < vs.countP is_data_required) :
    (list_remove_data_required vs).countP is_data_required
      = vs.countP is_data_required - 1 := by
  induction vs with
  | nil => simp at h
  | cons v vs ih =>
    by_cases hv : is_data_required v
    · simp [list_remove_data_required, hv, List.countP_cons]
    · have h0 : 0 < vs.countP is_data_required := by
        simpa [List.countP_cons, hv] using h
      have := ih h0
      simp [list_remove_data_required, hv, List.countP_cons, this]

lemma countP_pos_of_getter (vs : List Validator) (h : required_getter vs = true) :
    0 < vs.countP is_data_required := by
  rcases (required_getter_iff vs).mp h with ⟨v, hmem, hv⟩
  exact List.countP_pos_iff.mpr ⟨v, hmem, hv⟩

lemma getter_of_countP_zero (vs : List Validator) (h : vs.countP is_data_required = 0) :
    required_getter vs = false := by
  rcases hb : required_getter vs with _ | _
  · rfl
  · have := countP_pos_of_getter vs hb
    omega

/-- C7 counterexample: the claim says that immediately after `f.required = b`
the getter returns `b`, for every field and boolean. A field built by
`Field(required=True, validators=[DataRequired()])` holds two `DataRequired`
validators; setting `required = False` removes only the first, so the getter
still returns True. -/
theorem campos_C7_counterexample :
    required_getter (required_setter
        (field_init_validators true [Validator.dataRequired]) false) = true := by
  decide

/-- C7 amended: provided the validators list holds at most one `DataRequired`
instance, after `f.required = b` the getter returns `b`; setting True is
idempotent and adds no duplicate; setting False removes the first
`DataRequired`; and at all times the getter returns True exactly when a
`DataRequired` instance is present. -/
theorem campos_C7_required (vs : List Validator) (b : Bool)
    (h : vs.countP is_data_required ≤ 1) :
    required_getter (required_setter vs b) = b
  ∧ required_setter (required_setter vs true) true = required_setter vs true
  ∧ (required_getter vs = true ↔ ∃ v ∈ vs, is_data_required v = true) := by
  refine ⟨?_, ?_, required_getter_iff vs⟩
  · cases b with
    | true =>
      cases hfo : first_of_type vs with
      | none =>
        have : required_getter (vs ++ [Validator.dataRequired]) = true := by
          rw [required_getter_iff]
          exact ⟨Validator.dataRequired, by simp, rfl⟩
        simpa [required_setter, hfo] using this
      | some v =>
        have : required_getter vs = true := by
          simp [required_getter, hfo]
        simpa [required_setter, hfo] using this
    | false =>
      cases hfo : first_of_type vs with
      | none =>
        have : required_getter vs = false := by
          simp [required_getter, hfo]
        simpa [required_setter, hfo] using this
      | some v =>
        have hpos : 0 < vs.countP is_data_required :=
          countP_pos_of_getter vs (by simp [required_getter, hfo])
        have hz : (list_remove_data_required vs).countP is_data_required = 0 := by
          have := count_list_remove vs hpos
          omega
        have := getter_of_countP_zero _ hz
        simpa [required_setter, hfo] using this
  · cases hfo : first_of_type vs with
    | none =>
      have hfo2 : first_of_type (vs ++ [Validator.dataRequired])
          = some Validator.dataRequired := by
        rcases Option.isSome_iff_exists.mp
            (List.find?_isSome.mpr
              (⟨Validator.dataRequired, by simp, rfl⟩ :
                ∃ v ∈ vs ++ [Validator.dataRequired], is_data_required v = true))
          with ⟨w, hw⟩
        have hdr : is_data_required w = true :=
          List.find?_some (p := is_data_required) hw
        cases w with
        | dataRequired => exact hw
        | failsOn bad msg => cases hdr
      simp [required_setter, hfo, hfo2]
    | some v => simp [required_setter, hfo]

/-- Witness for C7's amended theorem at a concrete field state. -/
theorem campos_C7_required_witness :
    required_getter (required_setter [Validator.failsOn ["x"] "bad"] true) = true
  ∧ required_setter (required_setter [Validator.failsOn ["x"] "bad"] true) true
      = required_setter [Validator.failsOn ["x"] "bad"] true
  ∧ (required_getter [Validator.failsOn ["x"] "bad"] = true
      ↔ ∃ v ∈ [Validator.failsOn ["x"] "bad"], is_data_required v = true) :=
  campos_C7_required [Validator.failsOn ["x"] "bad"] true (by decide)

/-! ## process-global state: Field._FIELDS_COUNT, enum _CURRENT, os.environ -/

/-- The mutable state the library keeps outside any single widget: the
class-level counter `Field._FIELDS_COUNT`, the `_CURRENT` attribute of each
`HasCurrent` enum, and the `QT_API` entry of `os.environ` written by
`QtAPI.set_current`. -/
structure GlobalState where
  fieldsCount : Nat
  labellingCurrent : Option String
  validationCurrent : Option String
  qtApiCurrent : Option String
  envQtApi : Option String
  deriving DecidableEq, Repr

/-- The state of a fresh Python process: counter 0, no `_CURRENT` values,
`QT_API` not set by the library. -/
def initial_state : GlobalState :=
  { fieldsCount := 0, labellingCurrent := none, validationCurrent := none,
    qtApiCurrent := none, envQtApi := none }

/-- A character allowed anywhere but first in the `_ID_PATTERN` regex
`[a-z_]+[a-z0-9_]*` compiled with IGNORECASE. -/
def is_id_char (c : Char) : Bool :=
  c.isLower || c.isUpper || c == '_' || c.isDigit

/-- `re.fullmatch(_ID_PATTERN, value, re.IGNORECASE)` of the name setter:
the string is nonempty, starts with a letter or underscore, and continues
with letters, digits or underscores. -/
def matches_id_pattern (s : String) : Bool :=
  match s.data with
  | [] => false
  | c :: cs => (c.isLower || c.isUpper || c == '_') && cs.all is_id_char

/-- The name-generating prefix of `Field.__init__` (core.py lines 19-24):
`Field._FIELDS_COUNT` is incremented first, then the `name` setter either
generates `field{count}` for a falsy name, accepts a valid identifier, or
raises ValueError. -/
def field_init_name (g : GlobalState) (name : String) :
    Except PyError (GlobalState × String) :=
  let g2 := { g with fieldsCount := g.fieldsCount + 1 }
  if name == "" then Except.ok (g2, "field" ++ toString g2.fieldsCount)
  else if matches_id_pattern name then Except.ok (g2, name)
  else Except.error (PyError.valueError ("Expecting valid variable name, got " ++ name))

/-- `HasCurrent.set_current` for the `Labelling` enum (enums.py lines
112-129): resolve the value through `get_member` and store it in `_CURRENT`. -/
def labelling_set_current (g : GlobalState) (v : MemberArg) : Except PyError GlobalState :=
  match get_member { labelling_enum with current := g.labellingCurrent } v with
  | Except.ok m => Except.ok { g with labellingCurrent := some m }
  | Except.error e => Except.error e

/-- `QtAPI.set_current` (enums.py lines 146-150): the inherited
`set_current`, followed by `os.environ['QT_API'] = QtAPI.get_current().name.lower()`. -/
def qtapi_set_current (g : GlobalState) (v : MemberArg) : Except PyError GlobalState :=
  match get_member { qtapi_enum with current := g.qtApiCurrent } v with
  | Except.ok m => Except.ok { g with qtApiCurrent := some m, envQtApi := some (py_lower m) }
  | Except.error e => Except.error e

/-- `FileField._PathValidator.__call__` (fields.py lines 742-746): with the
filesystem modelled as the list `fs` of existing file paths, raise ValueError
when the field value is a nonempty list of paths of which some is not a file. -/
def path_validator_check (fs : List String) (fieldValue : List String) : Option String :=
  if fieldValue.length > 0 then
    if !(fieldValue.all (fun p => fs.contains p)) then some "Invalid file(s) found"
    else none
  else none

/-- C8 counterexample: the claim says no library operation retains mutable
state across calls other than the widget objects it composes; but
constructing a `Field` with an empty name twice in a row gives different
results (`field1` then `field2`) because the class-level counter
`Field._FIELDS_COUNT` persists between the two calls, and `set_current`
changes what later `get_member('current')` calls return. -/
theorem campos_C8_counterexample :
    (field_init_name { initial_state with fieldsCount := 1 } ""
        ≠ field_init_name initial_state "")
  ∧ (field_init_name initial_state "").map (fun r => r.1.fieldsCount)
      ≠ Except.ok initial_state.fieldsCount
  ∧ labelling_set_current initial_state (MemberArg.str "top")
      ≠ Except.ok initial_state := by
  refine ⟨?_, ?_, ?_⟩ <;> decide

/-- C8 amended: the library does retain mutable non-widget state across
calls, and exactly this: `Field.__init__` increments the class counter and
touches nothing else in the global state, `Labelling.set_current` writes only
that enum's `_CURRENT`, and `QtAPI.set_current` writes only its `_CURRENT`
together with the `QT_API` environment entry. -/
theorem campos_C8_retained_state (g : GlobalState) (n : String) (v : MemberArg) :
    (field_init_name g n).map Prod.fst
      = (field_init_name g n).map (fun _ => { g with fieldsCount := g.fieldsCount + 1 })
  ∧ (labelling_set_current g v).map (fun h => (h.fieldsCount, h.validationCurrent, h.qtApiCurrent, h.envQtApi))
      = (labelling_set_current g v).map (fun _ => (g.fieldsCount, g.validationCurrent, g.qtApiCurrent, g.envQtApi))
  ∧ (qtapi_set_current g v).map (fun h => (h.fieldsCount, h.labellingCurrent, h.validationCurrent))
      = (qtapi_set_current g v).map (fun _ => (g.fieldsCount, g.labellingCurrent, g.validationCurrent))
  ∧ (qtapi_set_current g v).map (fun h => h.envQtApi)
      = (qtapi_set_current g v).map (fun h => h.qtApiCurrent.map py_lower) := by
  refine ⟨?_, ?_, ?_, ?_⟩
  · unfold field_init_name
    by_cases h1 : n == ""
    · simp [h1, Except.map]
    · by_cases h2 : matches_id_pattern n <;> simp [h1, h2, Except.map]
  · unfold labelling_set_current
    cases get_member { labelling_enum with current := g.labellingCurrent } v <;>
      simp [Except.map]
  · unfold qtapi_set_current
    cases get_member { qtapi_enum with current := g.qtApiCurrent } v <;>
      simp [Except.map]
  · unfold qtapi_set_current
    cases get_member { qtapi_enum with current := g.qtApiCurrent } v <;>
      simp [Except.map]

/-- C9 counterexample: the claim says no operation reads or writes a storage
engine or process-global state outside the widgets it manages; but the
result of the `FileField` path validator on the same field value differs
between a filesystem containing `a.txt` and an empty one (it reads the
filesystem through `os.path.isfile`), and `QtAPI.set_current` changes
`os.environ['QT_API']`. -/
theorem campos_C9_counterexample :
    path_validator_check ["a.txt"] ["a.txt"] ≠ path_validator_check [] ["a.txt"]
  ∧ (qtapi_set_current initial_state (MemberArg.str "pyqt5")).map (fun g => g.envQtApi)
      ≠ Except.ok initial_state.envQtApi := by
  refine ⟨?_, ?_⟩ <;> decide

/-- C9 amended: apart from the path validators of `FileField`/`DirField`,
which read only the existence of the paths in the field value, and
`QtAPI.set_current`, which writes `os.environ['QT_API']`, operations keep
out of process-global state: the path validator's answer depends only on the
filesystem's answers for the paths it is given, and the other enums'
`set_current` never touches the environment. -/
theorem campos_C9_effects (fs fs2 ps : List String)
    (h : ∀ p ∈ ps, fs.contains p = fs2.contains p) :
    path_validator_check fs ps = path_validator_check fs2 ps
  ∧ ∀ (g : GlobalState) (v : MemberArg),
      (labelling_set_current g v).map (fun x => x.envQtApi)
        = (labelling_set_current g v).map (fun _ => g.envQtApi) := by
  constructor
  · have hall : ∀ qs : List String, (∀ p ∈ qs, fs.contains p = fs2.contains p) →
        qs.all (fun p => fs.contains p) = qs.all (fun p => fs2.contains p) := by
      intro qs
      induction qs with
      | nil => intro _; rfl
      | cons q qs ih =>
        intro hq
        simp only [List.all_cons]
        rw [hq q (List.mem_cons_self q qs),
          ih (fun p hp => hq p (List.mem_cons_of_mem q hp))]
    unfold path_validator_check
    rw [hall ps h]
  · intro g v
    unfold labelling_set_current
    cases get_member { labelling_enum with current := g.labellingCurrent } v <;>
      simp [Except.map]

/-- Witness for C9's amended theorem at concrete filesystems and paths. -/
theorem campos_C9_effects_witness :
    path_validator_check ["a.txt"] ["a.txt"] = path_validator_check ["a.txt", "b.txt"] ["a.txt"]
  ∧ ∀ (g : GlobalState) (v : MemberArg),
      (labelling_set_current g v).map (fun x => x.envQtApi)
        = (labelling_set_current g v).map (fun _ => g.envQtApi) :=
  campos_C9_effects ["a.txt"] ["a.txt", "b.txt"] ["a.txt"] (by decide)

/-! ## BaseField.labelling (core.py lines 223-229 and 264-315) -/

/-- Orientation of the Qt layout the setter builds: `QHBoxLayout` for LEFT,
`QVBoxLayout` for TOP. -/
inductive LayoutKind where
  | hbox
  | vbox
  deriving DecidableEq, Repr

/-- The three children a `BaseField` arranges: `self.label`, the
MAIN_COMPONENT and `self.error_label`. -/
inductive FieldChild where
  | textLabel
  | mainComponent
  | errorLabel
  deriving DecidableEq, Repr

/-- The widget state of a `BaseField` that the `labelling` property touches:
the `_labelling` attribute read by the getter, and the layout installed on
the QWidget (orientation and children, in order), if any. The Python
attribute `self.layout`, set to `None` in `BaseField.__init__` and never
reassigned, shadows the Qt `layout()` method and is left implicit: the only
place that reads it raises TypeError. -/
structure BaseFieldWidget where
  labellingAttr : Option String
  installedLayout : Option (LayoutKind × List FieldChild)
  deriving DecidableEq, Repr

/-- A `BaseField` right after `self.label`, `self.error_label` and
`self.layout = None` are set and before `Field.__init__` assigns
`self.labelling`. -/
def init_base_field : BaseFieldWidget :=
  { labellingAttr := none, installedLayout := none }

/-- The `labelling` getter (core.py lines 264-266): returns `_labelling`. -/
def labelling_getter (w : BaseFieldWidget) : Option String :=
  w.labellingAttr

/-- The `labelling` setter (core.py lines 268-315), faithfully including two
facts visible in the source: the setter never assigns `self._labelling`, and
`self.layout` is the instance attribute `None` (set in `BaseField.__init__`),
so the branch reusing the previous layout calls `None()`. A second
`self.setLayout(layout)` on a widget that already has a layout is refused by
Qt, leaving the installed layout as it was. -/
def labelling_setter (g : GlobalState) (w : BaseFieldWidget) (value : MemberArg) :
    Except PyError BaseFieldWidget := do
  let new ← get_member { labelling_enum with current := g.labellingCurrent } value
  if w.labellingAttr == some new then
    pure w
  else
    let klass ←
      if new == "LEFT" then pure LayoutKind.hbox
      else if new == "TOP" then pure LayoutKind.vbox
      else throw (PyError.valueError (new ++ " not supported"))
    match w.labellingAttr with
    | some _ =>
      -- `current = self.layout()` with `self.layout = None`
      throw (PyError.typeError "NoneType object is not callable")
    | none =>
      -- first-time branch: label, main component and error label are added
      -- in order to the fresh layout, then `self.setLayout(layout)`
      match w.installedLayout with
      | none =>
        let children := [FieldChild.textLabel, FieldChild.mainComponent, FieldChild.errorLabel]
        pure { w with installedLayout := some (klass, children) }
      | some cur =>
        pure { w with installedLayout := some cur }

/-- The children every freshly installed `BaseField` layout holds, in order. -/
def base_field_children : List FieldChild :=
  [FieldChild.textLabel, FieldChild.mainComponent, FieldChild.errorLabel]

/-- C6, evaluated at the failing input: constructing a `BaseField` with
`labelling='left'` installs the horizontal layout with the text label, the
main component and the error label in order (and `'top'` from scratch would
install the vertical one), and an unknown value raises ValueError — but then
assigning `labelling = 'top'` leaves the horizontal layout in place (the
setter never records `_labelling`, so the re-layout branch is unreachable
and Qt refuses the second `setLayout`), where the claim promises the same
children in a vertical layout. -/
theorem campos_C6_labelling_eval :
    labelling_setter initial_state init_base_field (MemberArg.str "left")
      = Except.ok { labellingAttr := none,
                    installedLayout := some (LayoutKind.hbox, base_field_children) }
  ∧ labelling_setter initial_state init_base_field (MemberArg.str "top")
      = Except.ok { labellingAttr := none,
                    installedLayout := some (LayoutKind.vbox, base_field_children) }
  ∧ (labelling_setter initial_state init_base_field (MemberArg.str "left") >>= fun w1 =>
      labelling_setter initial_state w1 (MemberArg.str "top"))
      = Except.ok { labellingAttr := none,
                    installedLayout := some (LayoutKind.hbox, base_field_children) }
  ∧ (labelling_setter initial_state init_base_field (MemberArg.str "left") >>= fun w1 =>
      pure (labelling_getter w1) : Except PyError (Option String))
      = Except.ok none
  ∧ labelling_setter initial_state init_base_field (MemberArg.str "diagonal")
      = Except.error (PyError.valueError "Unknown member of Labelling") := by
  refine ⟨?_, ?_, ?_, ?_, ?_⟩ <;> decide

/-! ## forms.py and the sources module -/

/-- Python's `str.capitalize()`: first character upper-cased, the rest
lower-cased. -/
def py_capitalize (s : String) : String :=
  match s.data with
  | [] => ""
  | c :: cs => String.mk (c.toUpper :: cs.map Char.toLower)

/-- A field as a form sees it: its name, the value it holds, and its
validation mode (a `Validation` member name). -/
structure FormField where
  name : String
  value : String
  validation : String
  deriving DecidableEq, Repr

/-- An object handed to `from_source`: the name of its class and its
public data attributes in definition order. -/
structure SourceObject where
  className : String
  attrs : List (String × String)
  deriving DecidableEq, Repr

/-- Whether an attribute name is private, i.e. starts with an underscore. -/
def starts_with_underscore (s : String) : Bool :=
  match s.data with
  | [] => false
  | c :: _ => c == '_'

/-- Modelled from the spec: the `campos.sources` module (object-introspection
field sources) is not under src; per the package docs and the examples,
`get_fields_source(obj, **source_kw).fields.values()` yields one field per
public, non-excluded data attribute of `obj`, named after the attribute and
holding its value. -/
def get_fields_source (obj : SourceObject) (exclude : List String) : List FormField :=
  (obj.attrs.filter (fun a => !(starts_with_underscore a.1) && !(exclude.contains a.1))).map
    (fun a => { name := a.1, value := a.2, validation := "CURRENT" })

/-- A `Form` as forms.py composes it: its window title (empty on a fresh
`QDialog`), its `fields` list and its resolved validation member. -/
structure FormModel where
  windowTitle : String
  fields : List FormField
  validation : String
  deriving DecidableEq, Repr

/-- `Form.add_field` (forms.py lines 167-179): the field's validation is
forced to 'manual', its change signal is wired to the form, and it is
appended to `self.fields`. -/
def add_field (form : FormModel) (f : FormField) : FormModel :=
  { form with fields := form.fields ++ [{ f with validation := "MANUAL" }] }

/-- The keyword arguments of a call to `Form.__init__`, as Python binds
them: a named parameter is bound only by a keyword of exactly its name;
every other keyword lands in `**kwargs`, where only `on_{option}` callback
names are ever read. -/
def kw_lookup (kwargs : List (String × List FormField)) (param : String) :
    Option (List FormField) :=
  (kwargs.find? (fun p => p.1 == param)).map Prod.snd

/-- `Form.__init__` (forms.py lines 103-135) restricted to the state the
claims are about: the `fields` parameter (default `()`, bound only by the
keyword `fields`) is added field by field, `validation` is resolved through
`Validation.get_member`, and the window title of the fresh `QDialog` stays
empty. -/
def form_init (g : GlobalState) (kwargs : List (String × List FormField))
    (validation : MemberArg) : Except PyError FormModel := do
  let fields := (kw_lookup kwargs "fields").getD []
  let v ← get_member { validation_enum with current := g.validationCurrent } validation
  pure (fields.foldl add_field { windowTitle := "", fields := [], validation := v })

/-- `Form.from_source` (forms.py lines 146-165): extract the fields from a
source, build a `Form(fields=fields, validation='current')` and set the
window title to the capitalized class name. -/
def form_from_source (g : GlobalState) (obj : SourceObject) (exclude : List String) :
    Except PyError FormModel := do
  let title := py_capitalize obj.className
  let fields := get_fields_source obj exclude
  let form ← form_init g [("fields", fields)] (MemberArg.str "current")
  pure { form with windowTitle := title }

/-- `CreationForm.from_source` (forms.py lines 346-352): builds
`CreationForm(title=..., members=source.fields.values(), validation='current')`;
`Form.__init__` has no `members` or `title` parameter, so both land unused in
`**kwargs` and the `fields` parameter keeps its default `()`. -/
def creation_form_from_source (g : GlobalState) (obj : SourceObject)
    (exclude : List String) : Except PyError FormModel :=
  form_init g [("members", get_fields_source obj exclude)] (MemberArg.str "current")

/-- `EditionForm.from_source` (forms.py lines 400-406): same call shape with
`validation='default'`. -/
def edition_form_from_source (g : GlobalState) (obj : SourceObject)
    (exclude : List String) : Except PyError FormModel :=
  form_init g [("members", get_fields_source obj exclude)] (MemberArg.str "default")

/-- `get_forms` (campos/\_\_init\_\_.py lines 10-25): the New and Edit forms
generated from `obj`. -/
def get_forms (g : GlobalState) (obj : SourceObject) (exclude : List String) :
    Except PyError (FormModel × FormModel) := do
  let new ← creation_form_from_source g obj exclude
  let edit ← edition_form_from_source g obj exclude
  pure (new, edit)

/-- The `Person` object of the forms.py docstring and the generating.py
example. -/
def demo_person : SourceObject :=
  { className := "person",
    attrs := [("name", "Billy"), ("last_name", "Smith"), ("age", "20")] }

lemma foldl_add_field_fields (fields : List FormField) (form : FormModel) :
    (fields.foldl add_field form).fields
      = form.fields ++ fields.map (fun f => { f with validation := "MANUAL" }) := by
  induction fields generalizing form with
  | nil => simp
  | cons f fs ih =>
    rw [List.foldl_cons, ih]
    simp [add_field]

lemma foldl_add_field_title (fields : List FormField) (form : FormModel) :
    (fields.foldl add_field form).windowTitle = form.windowTitle := by
  induction fields generalizing form with
  | nil => rfl
  | cons f fs ih =>
    rw [List.foldl_cons, ih]
    rfl

lemma foldl_add_field_validation (fields : List FormField) (form : FormModel) :
    (fields.foldl add_field form).validation = form.validation := by
  induction fields generalizing form with
  | nil => rfl
  | cons f fs ih =>
    rw [List.foldl_cons, ih]
    rfl

/-- C1, evaluated at the failing input: on the docstring's own `Person`
object the field source extracts three fields, yet both forms returned by
`get_forms` have an empty `fields` list, because the two `from_source`
methods pass the extracted fields under the keyword `members`, which
`Form.__init__` never reads (its parameter is `fields`). -/
theorem campos_C1_get_forms_eval :
    (get_forms initial_state demo_person []).map (fun p => (p.1.fields, p.2.fields))
      = Except.ok ([], [])
  ∧ (get_fields_source demo_person []).map FormField.name
      = ["name", "last_name", "age"] := by
  refine ⟨?_, ?_⟩ <;> decide

/-- C3: `Form.from_source(obj)` returns a form whose fields are exactly the
fields the source extracts from `obj` (same names and values, in order;
`add_field` switches each to manual validation) and whose window title is
the capitalized name of `obj`'s class. -/
theorem campos_C3_form_from_source (g : GlobalState) (obj : SourceObject)
    (exclude : List String) :
    (form_from_source g obj exclude).map (fun f => f.fields.map FormField.name)
      = (form_from_source g obj exclude).map
          (fun _ => (get_fields_source obj exclude).map FormField.name)
  ∧ (form_from_source g obj exclude).map (fun f => f.fields.map FormField.value)
      = (form_from_source g obj exclude).map
          (fun _ => (get_fields_source obj exclude).map FormField.value)
  ∧ (form_from_source g obj exclude).map FormModel.windowTitle
      = (form_from_source g obj exclude).map (fun _ => py_capitalize obj.className) := by
  have hres : ∀ v, get_member { validation_enum with current := g.validationCurrent }
      (MemberArg.str "current") = Except.ok v →
      form_from_source g obj exclude
        = Except.ok { windowTitle := py_capitalize obj.className,
                      fields := (get_fields_source obj exclude).map
                        (fun f => { f with validation := "MANUAL" }),
                      validation := v } := by
    intro v hv
    unfold form_from_source form_init
    simp only [kw_lookup, List.find?, bind, Except.bind, hv, pure, Except.pure]
    simp [foldl_add_field_fields, foldl_add_field_title, foldl_add_field_validation]
  cases hv : get_member { validation_enum with current := g.validationCurrent }
      (MemberArg.str "current") with
  | ok v =>
    rw [hres v hv]
    simp [Except.map]
  | error e =>
    have : form_from_source g obj exclude = Except.error e := by
      unfold form_from_source form_init
      simp only [kw_lookup, List.find?, bind, Except.bind, hv]
    rw [this]
    simp [Except.map]

/-! ## importing the campos package -/

/-- The module-level names defined by src/campos/utils.py: the `callable`
shim, the `Enum` shim and `first_validator_of_type`. -/
def utils_defines : List String := ["callable", "Enum", "first_validator_of_type"]

/-- The module-level names defined by src/campos/enums.py. -/
def enums_defines : List String :=
  ["BaseEnum", "HasDefault", "HasCurrent", "QtAPI", "Labelling", "Validation"]

/-- Modelled from the spec: the validators module is not under src; per the
docs and examples it defines these validator classes. -/
def validators_defines : List String :=
  ["DataRequired", "RegExp", "NumberRange", "StringLength", "DateRange",
   "TimeRange", "DatetimeRange"]

/-- Modelled from the spec: the sources module is not under src; per the
docs it defines the field-source machinery. -/
def sources_defines : List String := ["FieldSource", "get_fields_source"]

/-- A `from module import names` statement: ImportError on the first name
the module does not define. -/
def resolve_from (defines : List String) (names : List String) (module : String) :
    Except PyError Unit :=
  match names.find? (fun n => !(defines.contains n)) with
  | some n =>
    Except.error (PyError.importError ("cannot import name " ++ n ++ " from " ++ module))
  | none => Except.ok ()

/-- `import campos` runs campos/\_\_init\_\_.py top to bottom; loading the
`fields` and `forms` modules in turn runs their own import statements
(fields.py loads core.py first). Each line below is one `from ... import`
statement of the corresponding source file, in execution order. -/
def import_campos : Except PyError Unit := do
  resolve_from utils_defines ["Enum"] "utils"
  resolve_from enums_defines ["ButtonType", "Labelling", "Validation"] "enums"
  resolve_from validators_defines ["RegExp"] "validators"
  resolve_from sources_defines ["get_fields_source"] "sources"
  resolve_from enums_defines ["Validation", "Labelling"] "enums"
  resolve_from utils_defines ["callable", "first_of_type"] "utils"
  resolve_from validators_defines ["DataRequired"] "validators"
  resolve_from utils_defines ["first_of_type", "callable"] "utils"
  resolve_from validators_defines
    ["NumberRange", "StringLength", "DateRange", "TimeRange", "DatetimeRange"] "validators"
  resolve_from enums_defines ["Validation", "ButtonType"] "enums"
  resolve_from utils_defines ["callable"] "utils"
  pure ()

/-- C5, evaluated: `import campos` raises ImportError on the very first
statement of campos/\_\_init\_\_.py, because enums.py defines no
`ButtonType`; moreover core.py's and fields.py's own imports of
`first_of_type` from utils would fail too, since utils.py names that helper
`first_validator_of_type`. -/
theorem campos_C5_import_eval :
    import_campos = Except.error (PyError.importError "cannot import name ButtonType from enums")
  ∧ resolve_from utils_defines ["callable", "first_of_type"] "utils"
      = Except.error (PyError.importError "cannot import name first_of_type from utils") := by
  refine ⟨?_, ?_⟩ <;> decide

end Campos
